import Mathlib

/-!
# Verification of the PyPOTS base-model training lifecycle

A shallow embedding of `pypots/base.py` (`BaseModel`, `BaseNNModel`) and
`pypots/forecasting/base.py` (`BaseNNForecaster._train_model`), together with
proofs of the specification claims about device resolution, checkpoint
saving, best-loss tracking, patience-based early stopping and the
tensorboard logging loop.

Python floats that matter here are the mean epoch losses compared with
`float("inf")`; they are modelled as `WithTop ℚ` (with `⊤` standing for
`inf`).  Python dicts that matter (`loss_dict` in `_save_log_into_tb_file`)
are modelled as association lists in insertion order, with `popitem`
removing the most recently inserted entry (Python ≥ 3.7 LIFO semantics).
-/

namespace PyPOTS

/-! ## Python string primitives (modelled on `List Char` so they reduce) -/

/-- Python's `str.lower()`. -/
def pyLower (s : String) : String := ⟨s.data.map Char.toLower⟩

/-- `listStarts n h` holds when `n` occurs at the front of `h`. -/
def listStarts : List Char → List Char → Bool
  | [], _ => true
  | _ :: _, [] => false
  | a :: as, b :: bs => a == b && listStarts as bs

/-- `listHasRun n h` holds when `n` occurs contiguously anywhere inside `h`. -/
def listHasRun (needle : List Char) : List Char → Bool
  | [] => listStarts needle []
  | hay@(_ :: tl) => listStarts needle hay || listHasRun needle tl

/-- Python's substring containment test `needle in hay`. -/
def pyStrIn (needle hay : String) : Bool := listHasRun needle.data hay.data

/-- Split a character list at every occurrence of the separator `c`. -/
def splitChar (c : Char) : List Char → List (List Char)
  | [] => [[]]
  | a :: as =>
    let r := splitChar c as
    if a == c then [] :: r
    else
      match r with
      | [] => [[a]]
      | g :: gs => (a :: g) :: gs

/-- Python's `str.split(sep)` for a single-character separator. -/
def pySplit (c : Char) (s : String) : List String :=
  (splitChar c s.data).map String.mk

/-- Parse a non-empty run of decimal digits, as `int(s)` does on simple input. -/
def pyToNat : List Char → Option Nat
  | [] => none
  | cs => go cs 0
where
  go : List Char → Nat → Option Nat
    | [], acc => some acc
    | c :: cs, acc =>
      if c.isDigit then go cs (acc * 10 + (c.toNat - '0'.toNat)) else none

/-! ## Errors raised by the Python source -/

/-- The Python exception classes raised by code under `pypots/base.py` and
`pypots/forecasting/base.py`; a failed `assert` raises `AssertionError`. -/
inductive PyError where
  | assertionError (msg : String)
  | typeError (msg : String)
  | valueError (msg : String)
  | runtimeError (msg : String)
deriving DecidableEq, Repr

instance {ε α : Type} [DecidableEq ε] [DecidableEq α] : DecidableEq (Except ε α) := fun a b =>
  match a, b with
  | .ok x, .ok y => if h : x = y then .isTrue (by rw [h]) else .isFalse (by simp [h])
  | .error x, .error y => if h : x = y then .isTrue (by rw [h]) else .isFalse (by simp [h])
  | .ok _, .error _ => .isFalse (by simp)
  | .error _, .ok _ => .isFalse (by simp)

/-! ## The torch environment and `torch.device`

`torch` is an external dependency of the repository; only the tiny fragment
the source touches is modelled: `torch.cuda.is_available()`,
`torch.cuda.device_count()`, and `torch.device` values, which carry a device
type string (the part of a device string before `:`) and an optional index. -/

/-- The CUDA facts the source queries from torch. -/
structure TorchEnv where
  cuda_available : Bool
  cuda_device_count : Nat
deriving DecidableEq, Repr

/-- `torch.cuda.is_available() and torch.cuda.device_count() > 0`. -/
def TorchEnv.cudaOK (env : TorchEnv) : Bool :=
  env.cuda_available && decide (0 < env.cuda_device_count)

/-- A `torch.device` value: a device type such as `"cuda"` or `"cpu"`, and an
optional device index. -/
structure TorchDevice where
  type : String
  index : Option Nat
deriving DecidableEq, Repr

/-- `torch.device(s)` on a well-formed device string: the type is the part
before `:`, the index the digits after it. -/
def torch_device (s : String) : TorchDevice :=
  match pySplit ':' s with
  | [t] => ⟨t, none⟩
  | t :: i :: _ => ⟨t, pyToNat i.data⟩
  | [] => ⟨s, none⟩

/-! ## Device specifications and resolution (`BaseModel._setup_device`) -/

/-- An element of a device list argument: a string, a `torch.device`, or a
value of any other type (which the source rejects with `TypeError`). -/
inductive DeviceItem where
  | str (s : String)
  | dev (d : TorchDevice)
  | other
deriving DecidableEq, Repr

/-- The `device` argument of `BaseModel.__init__`: `None`, a string, a
`torch.device`, a list, or a value of any other type. -/
inductive DeviceSpec where
  | none
  | str (s : String)
  | dev (d : TorchDevice)
  | list (items : List DeviceItem)
  | other
deriving DecidableEq, Repr

/-- The resolved `self.device`: a single `torch.device` or a list of them
(the source only assigns a list when it has more than one element). -/
inductive DeviceAssignment where
  | single (d : TorchDevice)
  | multi (ds : List TorchDevice)
deriving DecidableEq, Repr

/-- The branch of `_setup_device` handling one element of a multi-device
list (`base.py` lines 107-123): lower-cased strings must contain `"cuda"`,
`torch.device` values must have a `"cuda"` type, anything else is a
`TypeError`. -/
def multiListItemDevice (idx : Nat) : DeviceItem → Except PyError TorchDevice
  | .str s =>
    let d := pyLower s
    if pyStrIn "cuda" d then .ok (torch_device d)
    else .error (.assertionError
      "The feature of training on multiple devices currently only support CUDA devices.")
  | .dev d =>
    if pyStrIn "cuda" d.type then .ok d
    else .error (.assertionError
      "The feature of training on multiple devices currently only support CUDA devices.")
  | .other => .error (.typeError
      ("Devices in the list should be str or torch.device, but the device with index "
        ++ toString idx ++ " is of another type."))

/-- The `for idx, d in enumerate(device)` loop of `_setup_device`, building
`device_list`; the first invalid element aborts with its error. -/
def buildDeviceList (idx : Nat) : List DeviceItem → Except PyError (List TorchDevice)
  | [] => .ok []
  | it :: rest => do
    let d ← multiListItemDevice idx it
    let ds ← buildDeviceList (idx + 1) rest
    .ok (d :: ds)

/-- The branch of `_setup_device` for a non-list `device` argument
(`base.py` lines 85-96 and 128-131).  A singleton list recurses into this
function (line 101), which is why it is split out. -/
def setupSingleDevice (env : TorchEnv) : DeviceSpec → Except PyError DeviceAssignment
  | .none =>
    if env.cudaOK then .ok (.single ⟨"cuda", Option.none⟩)
    else .ok (.single ⟨"cpu", Option.none⟩)
  | .str s => .ok (.single (torch_device (pyLower s)))
  | .dev d => .ok (.single d)
  | .list _ => .error (.typeError "unreachable: list handled by the caller")
  | .other => .error (.typeError
      "device should be str/torch.device/a list containing str or torch.device, but got another type")

/-- `DeviceItem`s viewed as a (non-list) `DeviceSpec`, for the singleton-list
recursion `self._setup_device(device[0])`. -/
def DeviceItem.toSpec : DeviceItem → DeviceSpec
  | .str s => .str s
  | .dev d => .dev d
  | .other => .other

/-- The body of `_setup_device` before the final CUDA-availability check
(`base.py` lines 84-131). -/
def setupDeviceCore (env : TorchEnv) : DeviceSpec → Except PyError DeviceAssignment
  | .list items =>
    match items with
    | [] => .error (.valueError "The list of devices should have at least 1 device, but got 0.")
    | [it] => setupSingleDevice env it.toSpec
    | its => do
      let ds ← buildDeviceList 0 its
      if 1 < ds.length then .ok (.multi ds)
      -- `self.device = device_list[0]`; the list branch is only reached with
      -- at least two elements, so `device_list` is never empty here.
      else .ok (.single (ds.headD ⟨"cpu", Option.none⟩))
  | spec => setupSingleDevice env spec

/-- The CUDA test of `base.py` lines 134-136: a list assignment is checked
on the type of its first element, a single assignment on its own type. -/
def assignmentRequestsCuda : DeviceAssignment → Bool
  | .multi ds => pyStrIn "cuda" (ds.headD ⟨"cpu", Option.none⟩).type
  | .single d => pyStrIn "cuda" d.type

/-- The final CUDA-availability check of `_setup_device` (`base.py` lines
133-139): if the resolved device (or the head of the resolved list) is a
CUDA device but CUDA is unavailable, the assert fails. -/
def cudaAvailabilityCheck (env : TorchEnv) (a : DeviceAssignment) :
    Except PyError DeviceAssignment :=
  if assignmentRequestsCuda a && !env.cudaOK then
    .error (.assertionError
      "You are trying to use CUDA for model training, but CUDA is not available in your environment.")
  else .ok a

/-- `BaseModel._setup_device` in full. -/
def _setup_device (env : TorchEnv) (spec : DeviceSpec) : Except PyError DeviceAssignment := do
  let a ← setupDeviceCore env spec
  cudaAvailabilityCheck env a

/-- Whether a device-list element passes the `"cuda" in …` test the source
applies to it (the lowered string for strings, the device type for
`torch.device` values). -/
def itemIsCuda : DeviceItem → Bool
  | .str s => pyStrIn "cuda" (pyLower s)
  | .dev d => pyStrIn "cuda" d.type
  | .other => false

/-- A device-list element that denotes a CUDA device: a `torch.device` with
a CUDA type, or a device string that both contains `"cuda"` and parses to
the device type `"cuda"` (as every torch-accepted CUDA string such as
`"cuda"` or `"cuda:1"` does). -/
def isCudaDeviceItem : DeviceItem → Prop
  | .str s => pyStrIn "cuda" (pyLower s) = true ∧ (torch_device (pyLower s)).type = "cuda"
  | .dev d => pyStrIn "cuda" d.type = true
  | .other => False

/-- The resolved assignment is non-empty: the source stores either one
device or a list of at least two. -/
def DeviceAssignment.nonEmptyOk : DeviceAssignment → Prop
  | .single _ => True
  | .multi ds => 2 ≤ ds.length

/-- Homogeneity of a resolved assignment in the sense validated by the
source: every device of a multi-device assignment is a CUDA device. -/
def DeviceAssignment.cudaHomogeneous : DeviceAssignment → Prop
  | .single _ => True
  | .multi ds => ∀ d ∈ ds, pyStrIn "cuda" d.type = true

/-- Whether the device specification requests CUDA: a string that resolves
to a CUDA device type, a CUDA `torch.device`, or a list containing an
element that passes the source's `"cuda" in …` test. -/
def cudaRequested : DeviceSpec → Bool
  | .none => false
  | .str s => pyStrIn "cuda" (torch_device (pyLower s)).type
  | .dev d => pyStrIn "cuda" d.type
  | .list items => items.any itemIsCuda
  | .other => false

/-- The valid device specifications enumerated by claim C8: `None`, a
single device string, a `torch.device`, or a non-empty list of CUDA
devices. -/
def ClaimValidSpec : DeviceSpec → Prop
  | .none => True
  | .str _ => True
  | .dev _ => True
  | .list items => items ≠ [] ∧ ∀ it ∈ items, isCudaDeviceItem it
  | .other => False

/-! ## `BaseModel.__init__`, `_setup_path` and `_auto_save_model_if_necessary` -/

/-- The admissible values of `model_saving_strategy` (`base.py` line 66). -/
def savingStrategies : List (Option String) := [Option.none, some "best", some "better"]

/-- `BaseModel._setup_path`: appends the current-time stamp to the given
saving path and derives the tensorboard directory; with no path, both stay
`None` (and no summary writer is created). -/
def _setup_path (time_now : String) : Option String → Option String × Option String
  | some p =>
    let sp := p ++ "/" ++ time_now
    (some sp, some (sp ++ "/" ++ "tensorboard"))
  | Option.none => (Option.none, Option.none)

/-- The fields of a constructed `BaseModel` that the claims examine. -/
structure BaseModelState where
  device : DeviceAssignment
  saving_path : Option String
  model_saving_strategy : Option String
deriving DecidableEq, Repr

/-- `BaseModel.__init__` (`base.py` lines 60-82): validate the saving
strategy, resolve the device, set up the saving path. -/
def baseModelInit (env : TorchEnv) (time_now : String) (device : DeviceSpec)
    (saving_path : Option String) (model_saving_strategy : Option String) :
    Except PyError BaseModelState :=
  if model_saving_strategy ∈ savingStrategies then do
    let a ← _setup_device env device
    let (sp, _tb) := _setup_path time_now saving_path
    .ok ⟨a, sp, model_saving_strategy⟩
  else .error (.assertionError
    "saving_strategy must be one of [None, best, better].")

/-- `BaseModel._auto_save_model_if_necessary` (`base.py` lines 260-285),
reduced to its observable effect: whether `save_model` is invoked. -/
def _auto_save_model_if_necessary (saving_path : Option String)
    (model_saving_strategy : Option String) (training_finished : Bool) : Bool :=
  if saving_path ≠ Option.none ∧ model_saving_strategy ≠ Option.none then
    if ¬training_finished ∧ model_saving_strategy = some "better" then true
    else if training_finished ∧ model_saving_strategy = some "best" then true
    else false
  else false

/-! ## `BaseModel.save_model` -/

/-- `file_name + ".pypots" if file_name.split(".")[-1] != "pypots" else
file_name` (`base.py` lines 235-237). -/
def pypotsFileName (file_name : String) : String :=
  if (pySplit '.' file_name).getLastD "" ≠ "pypots" then file_name ++ ".pypots"
  else file_name

/-- `os.path.join` for the plain relative names the claims use. -/
def osPathJoin (a b : String) : String := a ++ "/" ++ b

/-- The observable outcome of one `save_model` call.  The filesystem is a
list of existing paths. -/
structure SaveModelResult where
  saving_path : String
  warnedOverwriting : Bool
  loggedAbort : Bool
  fileWritten : Bool
  fs : List String
deriving DecidableEq, Repr

/-- `BaseModel.save_model` (`base.py` lines 211-258), assuming the
underlying `torch.save` succeeds.  Note the source's `else` branch at line
245 only logs "Saving operation aborted." — there is no `return`, so control
falls through to the `try` block and `torch.save` runs unconditionally. -/
def save_model (fs : List String) (saving_dir file_name : String) (overwrite : Bool) :
    SaveModelResult :=
  let fn := pypotsFileName file_name
  let path := osPathJoin saving_dir fn
  let ex : Bool := decide (path ∈ fs)
  { saving_path := path
    warnedOverwriting := ex && overwrite
    loggedAbort := ex && !overwrite
    fileWritten := true
    fs := if path ∈ fs then fs else path :: fs }

/-! ## `BaseNNModel.__init__` -/

/-- `BaseNNModel.__init__` lines 397-402: `patience=None` becomes `-1`
(disabling patience-based early stopping); otherwise `patience <= epochs` is
asserted.  Integers are modelled as `ℤ` since the counter goes negative. -/
def resolvePatience (patience : Option ℤ) (epochs : ℤ) : Except PyError ℤ :=
  match patience with
  | Option.none => .ok (-1)
  | some p =>
    if p ≤ epochs then .ok p
    else .error (.assertionError
      ("patience must be smaller than epoches which is " ++ toString epochs
        ++ ", but got patience=" ++ toString p))

/-- The fields of a constructed `BaseNNModel` that the claims examine.
`best_loss` is `float("inf")` initially, modelled as `⊤ : WithTop ℚ`;
`best_model_dict` holds (the index identifying) the captured snapshot. -/
structure NNModelState where
  base : BaseModelState
  batch_size : ℤ
  epochs : ℤ
  patience : ℤ
  original_patience : ℤ
  best_loss : WithTop ℚ
  best_model_dict : Option ℕ
deriving DecidableEq, Repr

/-- `BaseNNModel.__init__` (`base.py` lines 381-415): the `BaseModel`
constructor runs first, then the patience validation and field setup. -/
def nnModelInit (env : TorchEnv) (time_now : String) (batch_size epochs : ℤ)
    (patience : Option ℤ) (device : DeviceSpec) (saving_path : Option String)
    (model_saving_strategy : Option String) : Except PyError NNModelState := do
  let base ← baseModelInit env time_now device saving_path model_saving_strategy
  let p ← resolvePatience patience epochs
  .ok ⟨base, batch_size, epochs, p, p, ⊤, Option.none⟩

/-! ## The training loop (`BaseNNForecaster._train_model`) -/

/-- The per-run training state mutated by `_train_model`: the best mean
loss so far, the best snapshot so far (identified by the index of the epoch
that produced it), and the patience counter. -/
structure TrainState where
  best_loss : WithTop ℚ
  best_model_dict : Option ℕ
  patience : ℤ
deriving DecidableEq, Repr

/-- One epoch's bookkeeping (`forecasting/base.py` lines 301-311): on a
strictly lower mean loss the best loss, the snapshot and the patience
counter are updated; otherwise patience is decremented, and the loop breaks
when it reaches exactly zero.  Returns the new state and whether the loop
breaks. -/
def epochStep (original_patience : ℤ) (s : TrainState) (i : ℕ) (mean_loss : ℚ) :
    TrainState × Bool :=
  if (mean_loss : WithTop ℚ) < s.best_loss then
    (⟨mean_loss, some i, original_patience⟩, false)
  else
    let p := s.patience - 1
    ({ s with patience := p }, decide (p = 0))

/-- What one epoch of `_train_model` amounts to for these claims: it either
completes with a mean loss, or it raises (any exception escaping the epoch
body). -/
inductive EpochOutcome where
  | loss (l : ℚ)
  | exn
deriving DecidableEq, Repr

/-- The outcome of the `for epoch in range(self.epochs)` loop: final state,
number of epochs that finished their bookkeeping, whether an exception was
caught by the single `except` handler, and whether patience broke the loop
early. -/
structure LoopResult where
  state : TrainState
  epochsRun : ℕ
  exnCaught : Bool
  earlyStop : Bool
deriving DecidableEq, Repr

/-- The epoch loop of `_train_model` (`forecasting/base.py` lines 252-311).
The whole loop body sits inside one `try`, so the first raising epoch ends
the loop with the state reached so far. -/
def runLoop (original_patience : ℤ) : ℕ → TrainState → List EpochOutcome → LoopResult
  | _, s, [] => ⟨s, 0, false, false⟩
  | _, s, .exn :: _ => ⟨s, 0, true, false⟩
  | i, s, .loss l :: rest =>
    let step := epochStep original_patience s i l
    if step.2 then ⟨step.1, 1, false, true⟩
    else
      let r := runLoop original_patience (i + 1) step.1 rest
      ⟨r.state, r.epochsRun + 1, r.exnCaught, r.earlyStop⟩

/-- How a `_train_model` call ends when it raises: `interrupted` is the
`RuntimeError` from the `except` handler when no best snapshot exists;
`bestLossInf` is the `ValueError` raised when `best_loss` is still `inf`
after the loop. -/
inductive TrainError where
  | interrupted
  | bestLossInf
deriving DecidableEq, Repr

/-- `BaseNNForecaster._train_model` (`forecasting/base.py` lines 240-328)
over a list of epoch outcomes.  `pre` is the object state before the call:
lines 246-248 reset `best_loss` to `inf` and `best_model_dict` to `None`,
while `self.patience` is left as it was.  The `except` handler (lines
312-323) raises `RuntimeError` when no snapshot exists, and otherwise only
constructs a `RuntimeWarning` (without raising it) and falls through, so
the function returns normally with the best-so-far snapshot. -/
def _train_model (original_patience : ℤ) (pre : TrainState)
    (epochs : List EpochOutcome) : Except TrainError TrainState :=
  let s0 : TrainState := { pre with best_loss := ⊤, best_model_dict := Option.none }
  let r := runLoop original_patience 0 s0 epochs
  if r.exnCaught ∧ r.state.best_model_dict = Option.none then .error .interrupted
  else if r.state.best_loss = ⊤ then .error .bestLossInf
  else .ok r.state

/-! ## The tensorboard logging loop (`BaseModel._save_log_into_tb_file`) -/

/-- Python's `dict.popitem()`: removes and returns the most recently
inserted entry (the dict is an association list in insertion order). -/
def pyPopitem {α : Type} : List (String × α) → Option ((String × α) × List (String × α))
  | [] => Option.none
  | x :: xs =>
    match pyPopitem xs with
    | Option.none => some (x, [])
    | some (y, rest) => some (y, x :: rest)

theorem pyPopitem_length {α : Type} :
    ∀ {l : List (String × α)} {y : String × α} {rest : List (String × α)},
      pyPopitem l = some (y, rest) → rest.length < l.length := by
  intro l
  induction l with
  | nil => intro y rest h; simp [pyPopitem] at h
  | cons x xs ih =>
    intro y rest h
    simp only [pyPopitem] at h
    cases hx : pyPopitem xs with
    | none =>
      rw [hx] at h
      cases h
      simp
    | some p =>
      rw [hx] at h
      obtain ⟨y', rest'⟩ := p
      cases h
      have := ih hx
      simpa using Nat.succ_lt_succ this

/-- `BaseModel._save_log_into_tb_file` (`base.py` lines 187-209): pops
entries until the dict is empty, and for each popped entry whose name
contains `"loss"` or `"error"` calls
`add_scalar(stage + "/" + item_name, loss, step)`.  Returns the dict as it
is left on return, and the list of `add_scalar` calls in call order (tag,
value, step). -/
def _save_log_into_tb_file {α : Type} (step : ℕ) (stage : String)
    (loss_dict : List (String × α)) : List (String × α) × List (String × α × ℕ) :=
  match h : pyPopitem loss_dict with
  | Option.none => (loss_dict, [])
  | some ((item_name, loss), rest) =>
    let r := _save_log_into_tb_file step stage rest
    if pyStrIn "loss" item_name || pyStrIn "error" item_name then
      (r.1, (stage ++ "/" ++ item_name, loss, step) :: r.2)
    else r
termination_by loss_dict.length
decreasing_by exact pyPopitem_length h

/-! ## Shared lemmas -/

theorem pyPopitem_append {α : Type} (xs : List (String × α)) (x : String × α) :
    pyPopitem (xs ++ [x]) = some (x, xs) := by
  induction xs with
  | nil => simp [pyPopitem]
  | cons a as ih => simp [pyPopitem, ih]

theorem runLoop_cons_loss (orig : ℤ) (i : ℕ) (s : TrainState) (l : ℚ)
    (rest : List EpochOutcome) :
    runLoop orig i s (EpochOutcome.loss l :: rest) =
      if (epochStep orig s i l).2 then ⟨(epochStep orig s i l).1, 1, false, true⟩
      else
        ⟨(runLoop orig (i + 1) (epochStep orig s i l).1 rest).state,
         (runLoop orig (i + 1) (epochStep orig s i l).1 rest).epochsRun + 1,
         (runLoop orig (i + 1) (epochStep orig s i l).1 rest).exnCaught,
         (runLoop orig (i + 1) (epochStep orig s i l).1 rest).earlyStop⟩ := rfl

theorem epochStep_best_le (orig : ℤ) (s : TrainState) (i : ℕ) (l : ℚ) :
    (epochStep orig s i l).1.best_loss ≤ s.best_loss := by
  unfold epochStep
  split
  · exact le_of_lt (by assumption)
  · exact le_refl _

theorem runLoop_best_le (orig : ℤ) :
    ∀ (eps : List EpochOutcome) (i : ℕ) (s : TrainState),
      (runLoop orig i s eps).state.best_loss ≤ s.best_loss := by
  intro eps
  induction eps with
  | nil => intro i s; exact le_refl _
  | cons e rest ih =>
    intro i s
    cases e with
    | exn => exact le_refl _
    | loss l =>
      rw [runLoop_cons_loss]
      split
      · exact epochStep_best_le orig s i l
      · exact le_trans (ih (i + 1) (epochStep orig s i l).1) (epochStep_best_le orig s i l)

theorem runLoop_dict_imp_best (orig : ℤ) :
    ∀ (eps : List EpochOutcome) (i : ℕ) (s : TrainState),
      (s.best_model_dict ≠ Option.none → s.best_loss ≠ ⊤) →
      ((runLoop orig i s eps).state.best_model_dict ≠ Option.none →
        (runLoop orig i s eps).state.best_loss ≠ ⊤) := by
  intro eps
  induction eps with
  | nil => intro i s h; exact h
  | cons e rest ih =>
    intro i s h
    cases e with
    | exn => exact h
    | loss l =>
      have hstep : (epochStep orig s i l).1.best_model_dict ≠ Option.none →
          (epochStep orig s i l).1.best_loss ≠ ⊤ := by
        unfold epochStep
        split
        · intro _; exact WithTop.coe_ne_top
        · exact h
      rw [runLoop_cons_loss]
      split
      · exact hstep
      · exact ih (i + 1) (epochStep orig s i l).1 hstep

theorem buildDeviceList_err :
    ∀ (items : List DeviceItem) (idx : ℕ),
      (∀ it ∈ items, it ≠ DeviceItem.other) →
      (∃ it ∈ items, itemIsCuda it = false) →
      ∃ m, buildDeviceList idx items = .error (.assertionError m) := by
  intro items
  induction items with
  | nil =>
    intro idx h1 h2
    obtain ⟨it, hmem, _⟩ := h2
    exact absurd hmem (List.not_mem_nil it)
  | cons a rest ih =>
    intro idx h1 h2
    by_cases ha : itemIsCuda a = false
    · cases a with
      | other => exact absurd rfl (h1 .other (List.mem_cons_self _ _))
      | str s =>
        refine ⟨"The feature of training on multiple devices currently only support CUDA devices.", ?_⟩
        have hc : pyStrIn "cuda" (pyLower s) = false := by simpa [itemIsCuda] using ha
        simp [buildDeviceList, multiListItemDevice, hc, Bind.bind, Except.bind]
      | dev d =>
        refine ⟨"The feature of training on multiple devices currently only support CUDA devices.", ?_⟩
        have hc : pyStrIn "cuda" d.type = false := by simpa [itemIsCuda] using ha
        simp [buildDeviceList, multiListItemDevice, hc, Bind.bind, Except.bind]
    · have ha' : itemIsCuda a = true := by
        cases hcase : itemIsCuda a
        · exact absurd hcase ha
        · rfl
      obtain ⟨it, hmem, hfalse⟩ := h2
      rcases List.mem_cons.mp hmem with rfl | hmem'
      · exact absurd hfalse (by simp [ha'])
      obtain ⟨m, hm⟩ :=
        ih (idx + 1) (fun x hx => h1 x (List.mem_cons_of_mem _ hx)) ⟨it, hmem', hfalse⟩
      cases a with
      | other => exact absurd rfl (h1 .other (List.mem_cons_self _ _))
      | str s =>
        refine ⟨m, ?_⟩
        have hc : pyStrIn "cuda" (pyLower s) = true := by simpa [itemIsCuda] using ha'
        simp [buildDeviceList, multiListItemDevice, hc, hm, Bind.bind, Except.bind]
      | dev d =>
        refine ⟨m, ?_⟩
        have hc : pyStrIn "cuda" d.type = true := by simpa [itemIsCuda] using ha'
        simp [buildDeviceList, multiListItemDevice, hc, hm, Bind.bind, Except.bind]

theorem pyStrIn_cuda_cuda : pyStrIn "cuda" "cuda" = true := by decide

theorem itemIsCuda_of_isCuda : ∀ it : DeviceItem, isCudaDeviceItem it → itemIsCuda it = true := by
  intro it h
  cases it with
  | str s => exact h.1
  | dev d => exact h
  | other => exact h.elim

theorem buildDeviceList_ok :
    ∀ (items : List DeviceItem) (idx : ℕ),
      (∀ it ∈ items, isCudaDeviceItem it) →
      ∃ ds, buildDeviceList idx items = .ok ds ∧ ds.length = items.length ∧
        ∀ d ∈ ds, pyStrIn "cuda" d.type = true := by
  intro items
  induction items with
  | nil =>
    intro idx _
    exact ⟨[], rfl, rfl, fun d hd => absurd hd (List.not_mem_nil d)⟩
  | cons a rest ih =>
    intro idx h
    obtain ⟨ds, hds, hlen, hcuda⟩ := ih (idx + 1) (fun x hx => h x (List.mem_cons_of_mem _ hx))
    have ha := h a (List.mem_cons_self _ _)
    cases a with
    | other => exact ha.elim
    | str s =>
      obtain ⟨h1, h2⟩ := ha
      refine ⟨torch_device (pyLower s) :: ds, ?_, by simp [hlen], ?_⟩
      · simp [buildDeviceList, multiListItemDevice, h1, hds, Bind.bind, Except.bind]
      · intro d hd
        rcases List.mem_cons.mp hd with rfl | hd'
        · rw [h2]; exact pyStrIn_cuda_cuda
        · exact hcuda d hd'
    | dev d0 =>
      have h1 : pyStrIn "cuda" d0.type = true := ha
      refine ⟨d0 :: ds, ?_, by simp [hlen], ?_⟩
      · simp [buildDeviceList, multiListItemDevice, h1, hds, Bind.bind, Except.bind]
      · intro d hd
        rcases List.mem_cons.mp hd with rfl | hd'
        · exact h1
        · exact hcuda d hd'

/-- Modelled from the spec's words for claim C3, to be compared with the
source-side `runLoop`: an improving epoch (strictly lower loss than the best
so far) resets the count of consecutive non-improving epochs to zero; a
non-improving epoch increments it; the run halts early exactly when `p`
consecutive non-improving epochs have occurred since the last improvement.
Returns the number of epochs executed and whether the run halted early. -/
def specPatienceRun (p : ℕ) : WithTop ℚ → ℕ → List ℚ → ℕ × Bool
  | _, _, [] => (0, false)
  | best, streak, l :: rest =>
    if (l : WithTop ℚ) < best then
      let r := specPatienceRun p l 0 rest
      (r.1 + 1, r.2)
    else if streak + 1 = p then (1, true)
    else
      let r := specPatienceRun p best (streak + 1) rest
      (r.1 + 1, r.2)

theorem runLoop_matches_streak (p : ℕ) (hp : 1 ≤ p) :
    ∀ (losses : List ℚ) (i : ℕ) (best : WithTop ℚ) (dict : Option ℕ) (streak : ℕ),
      streak < p →
      (runLoop (p : ℤ) i ⟨best, dict, (p : ℤ) - streak⟩
          (losses.map EpochOutcome.loss)).epochsRun
        = (specPatienceRun p best streak losses).1 ∧
      (runLoop (p : ℤ) i ⟨best, dict, (p : ℤ) - streak⟩
          (losses.map EpochOutcome.loss)).earlyStop
        = (specPatienceRun p best streak losses).2 := by
  intro losses
  induction losses with
  | nil => intro i best dict streak hs; exact ⟨rfl, rfl⟩
  | cons l rest ih =>
    intro i best dict streak hs
    rw [List.map_cons, runLoop_cons_loss]
    by_cases hlt : (l : WithTop ℚ) < best
    · have hstep : epochStep (p : ℤ) ⟨best, dict, (p : ℤ) - streak⟩ i l
          = (⟨l, some i, (p : ℤ)⟩, false) := by
        unfold epochStep; rw [if_pos hlt]
      rw [hstep, if_neg Bool.false_ne_true]
      obtain ⟨e1, e2⟩ := ih (i + 1) l (some i) 0 (by omega)
      simp only [Nat.cast_zero, sub_zero] at e1 e2
      unfold specPatienceRun
      rw [if_pos hlt]
      exact ⟨congrArg (· + 1) e1, e2⟩
    · have hstep : epochStep (p : ℤ) ⟨best, dict, (p : ℤ) - streak⟩ i l
          = (⟨best, dict, (p : ℤ) - streak - 1⟩, decide ((p : ℤ) - streak - 1 = 0)) := by
        unfold epochStep; rw [if_neg hlt]
      by_cases hsp : streak + 1 = p
      · have hz : (p : ℤ) - streak - 1 = 0 := by
          have : (streak : ℤ) + 1 = (p : ℤ) := by exact_mod_cast congrArg Nat.cast hsp
          omega
        rw [hstep, if_pos (decide_eq_true hz)]
        unfold specPatienceRun
        rw [if_neg hlt, if_pos hsp]
        exact ⟨rfl, rfl⟩
      · have hnz : ¬((p : ℤ) - streak - 1 = 0) := by
          intro hc
          apply hsp
          omega
        rw [hstep, if_neg (fun hc => hnz (of_decide_eq_true hc))]
        obtain ⟨e1, e2⟩ := ih (i + 1) best dict (streak + 1) (by omega)
        have hcast : (p : ℤ) - streak - 1 = (p : ℤ) - ((streak + 1 : ℕ) : ℤ) := by
          push_cast; ring
        rw [hcast]
        unfold specPatienceRun
        rw [if_neg hlt, if_neg hsp]
        exact ⟨congrArg (· + 1) e1, e2⟩

/-! ## Claim theorems -/

/-- Claim C1 (code bug): `save_model` with `overwrite=False` and an existing
file at the destination logs "Saving operation aborted." but does not
return; the write still happens.  At the concrete failing input
(`saving_dir="dir"`, `file_name="model"`, `overwrite=False`, with
`dir/model.pypots` already on disk) the abort is logged and the file is
nonetheless written. -/
theorem save_model_overwrite_fallthrough :
    (save_model ["dir/model.pypots"] "dir" "model" false).loggedAbort = true ∧
    (save_model ["dir/model.pypots"] "dir" "model" false).fileWritten = true ∧
    (save_model ["dir/model.pypots"] "dir" "model" false).saving_path = "dir/model.pypots" := by
  decide

/-- Claim C7: `_auto_save_model_if_necessary` saves only under its trigger
condition: never with strategy `None` or without a saving path; with
strategy `"best"` exactly when `training_finished` is true; with strategy
`"better"` exactly when `training_finished` is false. -/
theorem auto_save_trigger_conditions :
    (∀ (sp : Option String) (tf : Bool),
       _auto_save_model_if_necessary sp Option.none tf = false) ∧
    (∀ (st : Option String) (tf : Bool),
       _auto_save_model_if_necessary Option.none st tf = false) ∧
    (∀ (p : String) (tf : Bool),
       _auto_save_model_if_necessary (some p) (some "best") tf = tf) ∧
    (∀ (p : String) (tf : Bool),
       _auto_save_model_if_necessary (some p) (some "better") tf = !tf) := by
  refine ⟨?_, ?_, ?_, ?_⟩ <;> intro a tf <;> cases tf <;>
    simp [_auto_save_model_if_necessary]

/-- Claim C10: `_save_log_into_tb_file` drains `loss_dict` via `popitem`
until it is empty on return, and writes to the event log exactly the
removed entries whose name contains `"loss"` or `"error"`, each under the
tag `stage ++ "/" ++ item_name` at the given step. -/
theorem tb_log_drains_dict_and_filters {α : Type} (step : ℕ) (stage : String)
    (loss_dict : List (String × α)) :
    (_save_log_into_tb_file step stage loss_dict).1 = [] ∧
    (_save_log_into_tb_file step stage loss_dict).2 =
      (loss_dict.reverse.filter
        (fun e => pyStrIn "loss" e.1 || pyStrIn "error" e.1)).map
        (fun e => (stage ++ "/" ++ e.1, e.2, step)) := by
  induction loss_dict using List.reverseRecOn with
  | nil =>
    rw [_save_log_into_tb_file]
    simp [pyPopitem]
  | append_singleton xs x ih =>
    obtain ⟨n, v⟩ := x
    rw [_save_log_into_tb_file]
    split
    · next heq =>
        rw [pyPopitem_append] at heq
        exact absurd heq (by simp)
    · next item_name loss rest heq =>
        rw [pyPopitem_append] at heq
        simp only [Option.some.injEq, Prod.mk.injEq] at heq
        obtain ⟨⟨hn, hv⟩, hr⟩ := heq
        subst hn; subst hv; subst hr
        rw [List.reverse_append]
        by_cases hb : (pyStrIn "loss" n || pyStrIn "error" n) = true
        · rw [if_pos hb]
          refine ⟨ih.1, ?_⟩
          simp [List.filter_cons, hb, ih.2]
        · rw [if_neg hb]
          have hb' : (pyStrIn "loss" n || pyStrIn "error" n) = false :=
            Bool.not_eq_true _ ▸ (by simpa using hb)
          refine ⟨ih.1, ?_⟩
          simp [List.filter_cons, hb', ih.2]

/-- Claim C5: an epoch of `_train_model` counts as an improvement (updating
`best_loss`, capturing the snapshot, resetting patience) exactly when its
mean loss is strictly lower than `best_loss`; on a tie the state keeps its
best loss and snapshot and only the patience counter is decremented (and,
a fortiori, no better-than-before checkpoint save can be triggered — the
loop in `forecasting/base.py` performs no save on non-improving epochs). -/
theorem improvement_iff_strictly_lower_loss (orig : ℤ) (s : TrainState) (i : ℕ) (l : ℚ) :
    ((l : WithTop ℚ) < s.best_loss →
       epochStep orig s i l = (⟨l, some i, orig⟩, false)) ∧
    (¬ (l : WithTop ℚ) < s.best_loss →
       epochStep orig s i l =
         ({ s with patience := s.patience - 1 }, decide (s.patience - 1 = 0))) ∧
    ((l : WithTop ℚ) = s.best_loss →
       (epochStep orig s i l).1.best_loss = s.best_loss ∧
       (epochStep orig s i l).1.best_model_dict = s.best_model_dict ∧
       (epochStep orig s i l).1.patience = s.patience - 1) := by
  refine ⟨?_, ?_, ?_⟩
  · intro h; unfold epochStep; rw [if_pos h]
  · intro h; unfold epochStep; rw [if_neg h]
  · intro h
    have hlt : ¬ (l : WithTop ℚ) < s.best_loss := by rw [h]; exact lt_irrefl _
    unfold epochStep
    rw [if_neg hlt]
    exact ⟨rfl, rfl, rfl⟩

/-- Witness for C5 at concrete inputs: an improving epoch (loss 1 below
best 2) and a tie epoch (loss 2 at best 2). -/
theorem improvement_iff_strictly_lower_loss_witness :
    epochStep 3 ⟨(2 : ℚ), some 0, 1⟩ 4 1 = (⟨(1 : ℚ), some 4, 3⟩, false) ∧
    ((epochStep 3 ⟨(2 : ℚ), some 0, 1⟩ 4 2).1.best_loss = ((2 : ℚ) : WithTop ℚ) ∧
     (epochStep 3 ⟨(2 : ℚ), some 0, 1⟩ 4 2).1.best_model_dict = some 0 ∧
     (epochStep 3 ⟨(2 : ℚ), some 0, 1⟩ 4 2).1.patience = 0) :=
  ⟨(improvement_iff_strictly_lower_loss 3 ⟨(2 : ℚ), some 0, 1⟩ 4 1).1 (by decide),
   (improvement_iff_strictly_lower_loss 3 ⟨(2 : ℚ), some 0, 1⟩ 4 2).2.2 (by decide)⟩

/-- Claim C4: within one `_train_model` run the tracked `best_loss` is
monotonically non-increasing (each epoch leaves it equal or strictly
smaller), and every run starts from `best_loss = inf`,
`best_model_dict = None`: the result depends on the pre-call object state
only through `self.patience`, and a run over zero epochs ends with the
`ValueError` for an `inf` best loss. -/
theorem best_loss_monotone_and_run_reset :
    (∀ (orig : ℤ) (s : TrainState) (i : ℕ) (l : ℚ),
       (epochStep orig s i l).1.best_loss ≤ s.best_loss ∧
       ((epochStep orig s i l).1.best_loss = s.best_loss ∨
        (epochStep orig s i l).1.best_loss < s.best_loss)) ∧
    (∀ (orig : ℤ) (i : ℕ) (s : TrainState) (eps : List EpochOutcome),
       (runLoop orig i s eps).state.best_loss ≤ s.best_loss) ∧
    (∀ (orig : ℤ) (pre pre' : TrainState) (eps : List EpochOutcome),
       pre.patience = pre'.patience →
       _train_model orig pre eps = _train_model orig pre' eps) ∧
    (∀ (orig : ℤ) (pre : TrainState),
       _train_model orig pre [] = .error .bestLossInf) := by
  refine ⟨?_, ?_, ?_, ?_⟩
  · intro orig s i l
    refine ⟨epochStep_best_le orig s i l, ?_⟩
    unfold epochStep
    split
    · right; simpa using (by assumption : (l : WithTop ℚ) < s.best_loss)
    · left; rfl
  · intro orig i s eps; exact runLoop_best_le orig eps i s
  · intro orig pre pre' eps h
    unfold _train_model
    rw [h]
  · intro orig pre
    simp [_train_model, runLoop]

/-- Witness for C4: two pre-states differing in their best fields but
agreeing on patience produce the same run result. -/
theorem best_loss_monotone_and_run_reset_witness :
    _train_model 2 ⟨⊤, Option.none, 2⟩ [EpochOutcome.loss 1] =
      _train_model 2 ⟨((5 : ℚ) : WithTop ℚ), some 9, 2⟩ [EpochOutcome.loss 1] :=
  best_loss_monotone_and_run_reset.2.2.1 2 ⟨⊤, Option.none, 2⟩
    ⟨((5 : ℚ) : WithTop ℚ), some 9, 2⟩ [EpochOutcome.loss 1] rfl

/-- Claim C9: `patience=None` is stored as `-1` and skips the
`patience <= epochs` assertion for every epoch budget; in the loop a
negative counter only ever decreases further, never equals zero, and never
breaks the loop, so all epochs run (absent an exception). -/
theorem patience_none_disables_early_stopping :
    (∀ e : ℤ, resolvePatience Option.none e = .ok (-1)) ∧
    (∀ (s : TrainState) (i : ℕ) (l : ℚ), s.patience < 0 →
       (epochStep (-1) s i l).1.patience < 0 ∧ (epochStep (-1) s i l).2 = false) ∧
    (∀ (losses : List ℚ) (i : ℕ) (s : TrainState), s.patience < 0 →
       (runLoop (-1) i s (losses.map EpochOutcome.loss)).earlyStop = false ∧
       (runLoop (-1) i s (losses.map EpochOutcome.loss)).epochsRun = losses.length ∧
       (runLoop (-1) i s (losses.map EpochOutcome.loss)).state.patience < 0) := by
  have hstep : ∀ (s : TrainState) (i : ℕ) (l : ℚ), s.patience < 0 →
      (epochStep (-1) s i l).1.patience < 0 ∧ (epochStep (-1) s i l).2 = false := by
    intro s i l h
    unfold epochStep
    split
    · exact ⟨by norm_num, rfl⟩
    · constructor
      · show s.patience - 1 < 0
        omega
      · show decide (s.patience - 1 = 0) = false
        simp only [decide_eq_false_iff_not]
        omega
  refine ⟨fun e => rfl, hstep, ?_⟩
  intro losses
  induction losses with
  | nil => intro i s h; exact ⟨rfl, rfl, h⟩
  | cons l rest ih =>
    intro i s h
    have hb := (hstep s i l h).2
    have hp := (hstep s i l h).1
    rw [List.map_cons, runLoop_cons_loss, hb, if_neg Bool.false_ne_true]
    obtain ⟨h1, h2, h3⟩ := ih (i + 1) (epochStep (-1) s i l).1 hp
    refine ⟨h1, ?_, h3⟩
    show (runLoop (-1) (i + 1) (epochStep (-1) s i l).1
      (rest.map EpochOutcome.loss)).epochsRun + 1 = rest.length + 1
    rw [h2]

/-- Witness for C9: with the stored `-1`, a two-epoch run executes both
epochs and never stops early. -/
theorem patience_none_disables_early_stopping_witness :
    (-1 : ℤ) < 0 ∧
    (runLoop (-1) 0 ⟨⊤, Option.none, -1⟩ ([2, 3].map EpochOutcome.loss)).earlyStop = false ∧
    (runLoop (-1) 0 ⟨⊤, Option.none, -1⟩ ([2, 3].map EpochOutcome.loss)).epochsRun =
      ([2, 3] : List ℚ).length ∧
    (runLoop (-1) 0 ⟨⊤, Option.none, -1⟩ ([2, 3].map EpochOutcome.loss)).state.patience < 0 :=
  ⟨by decide, patience_none_disables_early_stopping.2.2 [2, 3] 0 ⟨⊤, Option.none, -1⟩ (by decide)⟩

/-- Claim C6: construction fails immediately with a descriptive error for
each invalid input: a `model_saving_strategy` outside
`{None, "best", "better"}` (AssertionError); an empty device list
(ValueError); a multi-device list containing a non-CUDA device
(AssertionError); and, for neural-network models with `patience` not
`None`, a patience strictly greater than the epoch budget
(AssertionError). -/
theorem construction_validation_errors :
    (∀ (env : TorchEnv) (tn : String) (dev : DeviceSpec) (sp st : Option String),
       st ∉ savingStrategies →
       ∃ m, baseModelInit env tn dev sp st = .error (.assertionError m)) ∧
    (∀ (env : TorchEnv) (tn : String) (sp st : Option String),
       st ∈ savingStrategies →
       ∃ m, baseModelInit env tn (.list []) sp st = .error (.valueError m)) ∧
    (∀ (env : TorchEnv) (tn : String) (sp st : Option String) (items : List DeviceItem),
       st ∈ savingStrategies → 2 ≤ items.length →
       (∀ it ∈ items, it ≠ DeviceItem.other) →
       (∃ it ∈ items, itemIsCuda it = false) →
       ∃ m, baseModelInit env tn (.list items) sp st = .error (.assertionError m)) ∧
    (∀ (env : TorchEnv) (tn : String) (bs e pt : ℤ) (dev : DeviceSpec)
       (sp st : Option String) (s0 : BaseModelState),
       baseModelInit env tn dev sp st = .ok s0 → e < pt →
       ∃ m, nnModelInit env tn bs e (some pt) dev sp st = .error (.assertionError m)) := by
  refine ⟨?_, ?_, ?_, ?_⟩
  · intro env tn dev sp st hst
    refine ⟨"saving_strategy must be one of [None, best, better].", ?_⟩
    unfold baseModelInit
    rw [if_neg hst]
  · intro env tn sp st hst
    refine ⟨"The list of devices should have at least 1 device, but got 0.", ?_⟩
    unfold baseModelInit
    rw [if_pos hst]
    rfl
  · intro env tn sp st items hst hlen hform hbad
    obtain ⟨m, hm⟩ := buildDeviceList_err items 0 hform hbad
    refine ⟨m, ?_⟩
    match items, hlen with
    | a :: b :: rest, _ =>
      unfold baseModelInit
      rw [if_pos hst]
      simp [_setup_device, setupDeviceCore, hm, Bind.bind, Except.bind]
  · intro env tn bs e pt dev sp st s0 hbase hlt
    refine ⟨"patience must be smaller than epoches which is " ++ toString e
      ++ ", but got patience=" ++ toString pt, ?_⟩
    unfold nnModelInit
    rw [hbase]
    have : ¬ pt ≤ e := by omega
    simp [resolvePatience, this, Bind.bind, Except.bind]

/-- Witness for C6, one concrete instance per validation: a bogus saving
strategy, an empty device list, a two-element device list whose second
element is the CPU, and `patience=2` with `epochs=1`. -/
theorem construction_validation_errors_witness :
    (∃ m, baseModelInit ⟨false, 0⟩ "t" .none Option.none (some "bogus")
        = .error (.assertionError m)) ∧
    (∃ m, baseModelInit ⟨false, 0⟩ "t" (.list []) Option.none (some "best")
        = .error (.valueError m)) ∧
    (∃ m, baseModelInit ⟨true, 1⟩ "t"
        (.list [DeviceItem.str "cuda:0", DeviceItem.str "cpu"]) Option.none (some "best")
        = .error (.assertionError m)) ∧
    (∃ m, nnModelInit ⟨false, 0⟩ "t" 32 1 (some 2) .none Option.none (some "best")
        = .error (.assertionError m)) :=
  ⟨construction_validation_errors.1 ⟨false, 0⟩ "t" .none Option.none (some "bogus")
     (by decide),
   construction_validation_errors.2.1 ⟨false, 0⟩ "t" Option.none (some "best") (by decide),
   construction_validation_errors.2.2.1 ⟨true, 1⟩ "t" Option.none (some "best")
     [DeviceItem.str "cuda:0", DeviceItem.str "cpu"] (by decide) (by decide)
     (by decide) ⟨DeviceItem.str "cpu", by decide, by decide⟩,
   construction_validation_errors.2.2.2 ⟨false, 0⟩ "t" 32 1 2 .none Option.none
     (some "best") ⟨.single ⟨"cpu", Option.none⟩, Option.none, some "best"⟩
     (by decide) (by decide)⟩

/-- Claim C8: for every valid device specification (`None`, a single device
string, a `torch.device`, or a non-empty list of CUDA devices), resolution
yields a non-empty homogeneous assignment or fails with the documented
validation error; with no device given it defaults to CUDA when available
and to the CPU otherwise; and whenever CUDA is requested but unavailable
(and only then) resolution fails fast. -/
theorem device_resolution_sound (env : TorchEnv) (spec : DeviceSpec)
    (h : ClaimValidSpec spec) :
    (∀ a, _setup_device env spec = .ok a →
       a.nonEmptyOk ∧ a.cudaHomogeneous) ∧
    (spec = DeviceSpec.none →
       _setup_device env spec =
         .ok (.single (if env.cudaOK then ⟨"cuda", Option.none⟩ else ⟨"cpu", Option.none⟩))) ∧
    (cudaRequested spec = true → env.cudaOK = false →
       ∃ e, _setup_device env spec = .error e) ∧
    (∀ e, _setup_device env spec = .error e →
       cudaRequested spec = true ∧ env.cudaOK = false) := by
  cases spec with
  | none =>
    have hchar : _setup_device env DeviceSpec.none =
        .ok (.single (if env.cudaOK then ⟨"cuda", Option.none⟩ else ⟨"cpu", Option.none⟩)) := by
      by_cases hc : env.cudaOK = true
      · simp [_setup_device, setupDeviceCore, setupSingleDevice, hc, cudaAvailabilityCheck,
          assignmentRequestsCuda, pyStrIn_cuda_cuda, Bind.bind, Except.bind]
      · have hc' : env.cudaOK = false := by
          cases henv : env.cudaOK
          · rfl
          · exact absurd henv hc
        simp [_setup_device, setupDeviceCore, setupSingleDevice, hc', cudaAvailabilityCheck,
          assignmentRequestsCuda, Bind.bind, Except.bind,
          show pyStrIn "cuda" "cpu" = false by decide]
    refine ⟨?_, fun _ => hchar, ?_, ?_⟩
    · intro a ha
      rw [hchar] at ha
      cases ha
      exact ⟨trivial, trivial⟩
    · intro hreq _
      exact absurd hreq (by simp [cudaRequested])
    · intro e he
      rw [hchar] at he
      exact Except.noConfusion he
  | str s =>
    have hchar : _setup_device env (DeviceSpec.str s) =
        if pyStrIn "cuda" (torch_device (pyLower s)).type && !env.cudaOK then
          .error (.assertionError
            "You are trying to use CUDA for model training, but CUDA is not available in your environment.")
        else .ok (.single (torch_device (pyLower s))) := rfl
    refine ⟨?_, fun hn => by simp at hn, ?_, ?_⟩
    · intro a ha
      rw [hchar] at ha
      split at ha
      · exact Except.noConfusion ha
      · cases ha; exact ⟨trivial, trivial⟩
    · intro hreq hcud
      rw [hchar]
      have hb : (pyStrIn "cuda" (torch_device (pyLower s)).type && !env.cudaOK) = true := by
        have : pyStrIn "cuda" (torch_device (pyLower s)).type = true := hreq
        simp [this, hcud]
      rw [if_pos hb]
      exact ⟨_, rfl⟩
    · intro e he
      rw [hchar] at he
      split at he
      · next hcond =>
          simp only [Bool.and_eq_true] at hcond
          refine ⟨hcond.1, ?_⟩
          cases henv : env.cudaOK
          · rfl
          · rw [henv] at hcond; simp at hcond
      · exact Except.noConfusion he
  | dev d =>
    have hchar : _setup_device env (DeviceSpec.dev d) =
        if pyStrIn "cuda" d.type && !env.cudaOK then
          .error (.assertionError
            "You are trying to use CUDA for model training, but CUDA is not available in your environment.")
        else .ok (.single d) := rfl
    refine ⟨?_, fun hn => by simp at hn, ?_, ?_⟩
    · intro a ha
      rw [hchar] at ha
      split at ha
      · exact Except.noConfusion ha
      · cases ha; exact ⟨trivial, trivial⟩
    · intro hreq hcud
      rw [hchar]
      rw [if_pos (by simp [show pyStrIn "cuda" d.type = true from hreq, hcud])]
      exact ⟨_, rfl⟩
    · intro e he
      rw [hchar] at he
      split at he
      · next hcond =>
          simp only [Bool.and_eq_true] at hcond
          refine ⟨hcond.1, ?_⟩
          cases henv : env.cudaOK
          · rfl
          · rw [henv] at hcond; simp at hcond
      · exact Except.noConfusion he
  | other => exact h.elim
  | list items =>
    obtain ⟨hne, hall⟩ := h
    cases items with
    | nil => exact absurd rfl hne
    | cons a tail =>
      cases tail with
      | nil =>
        have hcu := hall a (List.mem_cons_self _ _)
        cases a with
        | other => exact hcu.elim
        | str s =>
          obtain ⟨h1, h2⟩ := hcu
          have hchar : _setup_device env (.list [DeviceItem.str s]) =
              if pyStrIn "cuda" (torch_device (pyLower s)).type && !env.cudaOK then
                .error (.assertionError
                  "You are trying to use CUDA for model training, but CUDA is not available in your environment.")
              else .ok (.single (torch_device (pyLower s))) := rfl
          have hreq : cudaRequested (.list [DeviceItem.str s]) = true := by
            simp [cudaRequested, itemIsCuda, h1]
          refine ⟨?_, fun hn => by simp at hn, ?_, ?_⟩
          · intro a ha
            rw [hchar] at ha
            split at ha
            · exact Except.noConfusion ha
            · cases ha; exact ⟨trivial, trivial⟩
          · intro _ hcud
            rw [hchar, if_pos (by rw [h2]; simp [pyStrIn_cuda_cuda, hcud])]
            exact ⟨_, rfl⟩
          · intro e he
            refine ⟨hreq, ?_⟩
            rw [hchar] at he
            split at he
            · next hcond =>
                simp only [Bool.and_eq_true] at hcond
                cases henv : env.cudaOK
                · rfl
                · rw [henv] at hcond; simp at hcond
            · exact Except.noConfusion he
        | dev d0 =>
          have h1 : pyStrIn "cuda" d0.type = true := hcu
          have hchar : _setup_device env (.list [DeviceItem.dev d0]) =
              if pyStrIn "cuda" d0.type && !env.cudaOK then
                .error (.assertionError
                  "You are trying to use CUDA for model training, but CUDA is not available in your environment.")
              else .ok (.single d0) := rfl
          have hreq : cudaRequested (.list [DeviceItem.dev d0]) = true := by
            simp [cudaRequested, itemIsCuda, h1]
          refine ⟨?_, fun hn => by simp at hn, ?_, ?_⟩
          · intro a ha
            rw [hchar] at ha
            split at ha
            · exact Except.noConfusion ha
            · cases ha; exact ⟨trivial, trivial⟩
          · intro _ hcud
            rw [hchar, if_pos (by simp [h1, hcud])]
            exact ⟨_, rfl⟩
          · intro e he
            refine ⟨hreq, ?_⟩
            rw [hchar] at he
            split at he
            · next hcond =>
                simp only [Bool.and_eq_true] at hcond
                cases henv : env.cudaOK
                · rfl
                · rw [henv] at hcond; simp at hcond
            · exact Except.noConfusion he
      | cons b rest =>
        obtain ⟨ds, hds, hlen, hcuda⟩ := buildDeviceList_ok (a :: b :: rest) 0 hall
        have hlen2 : 2 ≤ ds.length := by
          rw [hlen]; simp only [List.length_cons]; omega
        have hhead : pyStrIn "cuda" (ds.head?.getD ⟨"cpu", Option.none⟩).type = true := by
          cases ds with
          | nil => simp at hlen2
          | cons d0 ds' => exact hcuda d0 (List.mem_cons_self _ _)
        have hcore : setupDeviceCore env (.list (a :: b :: rest)) = .ok (.multi ds) := by
          have h1lt : 1 < ds.length := by omega
          simp [setupDeviceCore, hds, h1lt, Bind.bind, Except.bind]
        have hchar : _setup_device env (.list (a :: b :: rest)) =
            if !env.cudaOK then
              .error (.assertionError
                "You are trying to use CUDA for model training, but CUDA is not available in your environment.")
            else .ok (.multi ds) := by
          simp [_setup_device, hcore, cudaAvailabilityCheck, assignmentRequestsCuda, hhead,
            Bind.bind, Except.bind]
        have hreq : cudaRequested (.list (a :: b :: rest)) = true := by
          have hia := itemIsCuda_of_isCuda a (hall a (List.mem_cons_self _ _))
          simp [cudaRequested, hia]
        refine ⟨?_, fun hn => by simp at hn, ?_, ?_⟩
        · intro x hx
          rw [hchar] at hx
          split at hx
          · exact Except.noConfusion hx
          · cases hx
            exact ⟨hlen2, hcuda⟩
        · intro _ hcud
          rw [hchar, if_pos (by simp [hcud])]
          exact ⟨_, rfl⟩
        · intro e he
          refine ⟨hreq, ?_⟩
          rw [hchar] at he
          split at he
          · next hcond =>
              cases henv : env.cudaOK
              · rfl
              · rw [henv] at hcond; simp at hcond
          · exact Except.noConfusion he

/-- Witness for C8: with CUDA available, no given device resolves to the
default CUDA device; with CUDA unavailable, a two-element CUDA device list
fails fast. -/
theorem device_resolution_sound_witness :
    _setup_device ⟨true, 1⟩ DeviceSpec.none = .ok (.single ⟨"cuda", Option.none⟩) ∧
    (∃ e, _setup_device ⟨false, 0⟩
        (.list [DeviceItem.str "cuda:0", DeviceItem.str "cuda:1"]) = .error e) :=
  ⟨(device_resolution_sound ⟨true, 1⟩ DeviceSpec.none trivial).2.1 rfl,
   (device_resolution_sound ⟨false, 0⟩
      (.list [DeviceItem.str "cuda:0", DeviceItem.str "cuda:1"])
      ⟨by simp, by
        intro it hit
        rcases List.mem_cons.mp hit with rfl | hit'
        · exact ⟨by decide, by decide⟩
        rcases List.mem_cons.mp hit' with rfl | h0
        · exact ⟨by decide, by decide⟩
        · exact absurd h0 (List.not_mem_nil it)⟩).2.2.1 (by decide) rfl⟩

/-- Claim C3: with configured patience `p ≥ 1`, an improving epoch resets
the patience counter to `p`, each non-improving epoch decrements it by one
and breaks the loop exactly when the counter reaches zero, and the loop's
behaviour coincides with the spec-side streak machine `specPatienceRun`:
the run halts early exactly when `p` consecutive non-improving epochs have
occurred since the last improvement, and when that happens strictly inside
the epoch budget the loop stops before the budget is exhausted. -/
theorem patience_countdown_matches_streak_spec (p : ℕ) (hp : 1 ≤ p) (losses : List ℚ) :
    (∀ (s : TrainState) (i : ℕ) (l : ℚ), (l : WithTop ℚ) < s.best_loss →
       (epochStep (p : ℤ) s i l).1.patience = (p : ℤ)) ∧
    (∀ (s : TrainState) (i : ℕ) (l : ℚ), ¬ (l : WithTop ℚ) < s.best_loss →
       (epochStep (p : ℤ) s i l).1.patience = s.patience - 1 ∧
       ((epochStep (p : ℤ) s i l).2 = true ↔ s.patience - 1 = 0)) ∧
    ((runLoop (p : ℤ) 0 ⟨⊤, Option.none, (p : ℤ)⟩ (losses.map EpochOutcome.loss)).epochsRun
       = (specPatienceRun p ⊤ 0 losses).1 ∧
     (runLoop (p : ℤ) 0 ⟨⊤, Option.none, (p : ℤ)⟩ (losses.map EpochOutcome.loss)).earlyStop
       = (specPatienceRun p ⊤ 0 losses).2) ∧
    ((specPatienceRun p ⊤ 0 losses).2 = true →
     (specPatienceRun p ⊤ 0 losses).1 < losses.length →
       (runLoop (p : ℤ) 0 ⟨⊤, Option.none, (p : ℤ)⟩ (losses.map EpochOutcome.loss)).earlyStop
         = true ∧
       (runLoop (p : ℤ) 0 ⟨⊤, Option.none, (p : ℤ)⟩ (losses.map EpochOutcome.loss)).epochsRun
         < losses.length) := by
  have hmain := runLoop_matches_streak p hp losses 0 ⊤ Option.none 0 (by omega)
  simp only [Nat.cast_zero, sub_zero] at hmain
  refine ⟨?_, ?_, hmain, ?_⟩
  · intro s i l hlt
    unfold epochStep
    rw [if_pos hlt]
  · intro s i l hlt
    unfold epochStep
    rw [if_neg hlt]
    exact ⟨rfl, by simp⟩
  · intro hhalt hlen
    rw [hmain.1, hmain.2]
    exact ⟨hhalt, hlen⟩

/-- Witness for C3 at `p = 2`, losses `[1, 2, 3, 4]`: epoch 0 improves,
epochs 1 and 2 are non-improving, so the loop executes 3 of the 4 budgeted
epochs and stops early. -/
theorem patience_countdown_matches_streak_spec_witness :
    1 ≤ 2 ∧
    ((runLoop ((2 : ℕ) : ℤ) 0 ⟨⊤, Option.none, ((2 : ℕ) : ℤ)⟩
        (([1, 2, 3, 4] : List ℚ).map EpochOutcome.loss)).earlyStop = true ∧
     (runLoop ((2 : ℕ) : ℤ) 0 ⟨⊤, Option.none, ((2 : ℕ) : ℤ)⟩
        (([1, 2, 3, 4] : List ℚ).map EpochOutcome.loss)).epochsRun
       < ([1, 2, 3, 4] : List ℚ).length) :=
  ⟨by decide,
   (patience_countdown_matches_streak_spec 2 (by decide) [1, 2, 3, 4]).2.2.2
     (by decide) (by decide)⟩

/-- Claim C2: an exception raised inside the epoch loop is caught by the
single `except` handler; if no best snapshot exists the call raises
`RuntimeError` (fatal), otherwise `_train_model` returns without raising
(the handler merely constructs a `RuntimeWarning`) and the best-so-far
snapshot and loss are the final result, unchanged. -/
theorem train_model_interruption_handling (orig : ℤ) (pre : TrainState)
    (eps : List EpochOutcome)
    (hexn : (runLoop orig 0 ⟨⊤, Option.none, pre.patience⟩ eps).exnCaught = true) :
    ((runLoop orig 0 ⟨⊤, Option.none, pre.patience⟩ eps).state.best_model_dict = Option.none →
       _train_model orig pre eps = .error .interrupted) ∧
    (∀ d : ℕ,
       (runLoop orig 0 ⟨⊤, Option.none, pre.patience⟩ eps).state.best_model_dict = some d →
       _train_model orig pre eps =
         .ok (runLoop orig 0 ⟨⊤, Option.none, pre.patience⟩ eps).state) := by
  constructor
  · intro hd
    unfold _train_model
    rw [if_pos ⟨hexn, hd⟩]
  · intro d hd
    have hne : (runLoop orig 0 ⟨⊤, Option.none, pre.patience⟩ eps).state.best_loss ≠ ⊤ := by
      refine runLoop_dict_imp_best orig eps 0 ⟨⊤, Option.none, pre.patience⟩ ?_ ?_
      · intro hcontra; exact absurd rfl hcontra
      · rw [hd]; exact fun hc => Option.noConfusion hc
    unfold _train_model
    rw [if_neg (by rw [hd]; rintro ⟨-, hc⟩; exact Option.noConfusion hc), if_neg hne]

/-- Witness for C2: a run whose first epoch improves and whose second epoch
raises returns the snapshot of epoch 0; a run whose first epoch raises is
fatal. -/
theorem train_model_interruption_handling_witness :
    _train_model 3 ⟨⊤, Option.none, 3⟩ [EpochOutcome.loss 1, EpochOutcome.exn] =
      .ok ⟨((1 : ℚ) : WithTop ℚ), some 0, 3⟩ ∧
    _train_model 3 ⟨⊤, Option.none, 3⟩ [EpochOutcome.exn] = .error .interrupted :=
  ⟨by
    have h := (train_model_interruption_handling 3 ⟨⊤, Option.none, 3⟩
      [EpochOutcome.loss 1, EpochOutcome.exn] (by decide)).2 0 (by decide)
    rw [h]; decide,
   (train_model_interruption_handling 3 ⟨⊤, Option.none, 3⟩ [EpochOutcome.exn]
      (by decide)).1 (by decide)⟩

end PyPOTS
